import Mathlib

/-!
Verification development for the htmx server-commands extension
(src/static/server-commands.js).

The JavaScript source is shallowly embedded: command elements are modelled
as a small HTML node tree, the external collaborators (the htmx internal
api object, htmx.find, JSON.parse, event listeners) are modelled as an
explicit environment of pure functions, and every observable action of the
extension (swaps, event dispatches, navigation, history mutation, console
warnings) is recorded in an effect trace in the exact order the source
performs it.
-/

namespace ServerCommands

/-! ### JavaScript value model

JSON values as produced by JSON.parse. Numbers are modelled as integers
(the claims under study only involve integer literals). Object entries
keep their textual order, matching JS property-insertion order.
-/

inductive Json where
  | null
  | bool (b : Bool)
  | num (n : Int)
  | str (s : String)
  | arr (elems : List Json)
  | obj (entries : List (String × Json))

/-- First-match lookup in an association list keyed by strings. -/
def lookupStr {α : Type} (l : List (String × α)) (k : String) : Option α :=
  match l with
  | [] => none
  | p :: ps => if p.1 = k then some p.2 else lookupStr ps k

/-- Property read `j[k]`: defined for objects, `undefined` (none) otherwise. -/
def objGet (j : Json) (k : String) : Option Json :=
  match j with
  | Json.obj entries => lookupStr entries k
  | _ => none

/-- The JS `delete j[k]` operation on an object; other values are unchanged. -/
def objRemove (j : Json) (k : String) : Json :=
  match j with
  | Json.obj entries => Json.obj (entries.filter (fun p => !(p.1 = k : Bool)))
  | _ => j

/-- Entries of an object value, empty for non-objects. -/
def objEntries (j : Json) : List (String × Json) :=
  match j with
  | Json.obj entries => entries
  | _ => []

/-- The JS test `typeof j === "object"`: true for objects, arrays and null. -/
def jsTypeofObject (j : Json) : Bool :=
  match j with
  | Json.null => true
  | Json.arr _ => true
  | Json.obj _ => true
  | _ => false

/-- Whether the value is the JS null literal. -/
def isNullJson (j : Json) : Bool :=
  match j with
  | Json.null => true
  | _ => false

/-- JS truthiness of a JSON value: null, false, 0 and the empty string are
falsy; every object and array is truthy. -/
def jsTruthy (j : Json) : Bool :=
  match j with
  | Json.null => false
  | Json.bool b => b
  | Json.num n => !(n = 0 : Bool)
  | Json.str s => !(s = "" : Bool)
  | Json.arr _ => true
  | Json.obj _ => true

mutual
/-- JS string coercion of a value, as applied to the argument of a DOM
selector lookup. Only the string case is exercised by the claims. -/
def jsToString : Json → String
  | Json.null => "null"
  | Json.bool b => if b then "true" else "false"
  | Json.num n => toString n
  | Json.str s => s
  | Json.arr l => jsToStringList l
  | Json.obj _ => "[object Object]"

/-- Comma-joined coercion of array elements, as JS Array.prototype.toString. -/
def jsToStringList : List Json → String
  | [] => ""
  | [j] => jsToString j
  | j :: rest => jsToString j ++ "," ++ jsToStringList rest
end

/-- Keys and values visited by a JS for..in loop over a parsed JSON value:
own enumerable properties of objects in insertion order, index keys for
arrays and strings, nothing for primitives. -/
def forInEntries (j : Json) : List (String × Json) :=
  match j with
  | Json.obj entries => entries
  | Json.arr l => (l.enum).map (fun p => (toString p.1, p.2))
  | Json.str s => (s.data.enum).map (fun p => (toString p.1, Json.str (String.mk [p.2])))
  | _ => []

/-! ### String helpers

Executable counterparts of the JS string operations used by the source,
written over the character list so that concrete instances evaluate
inside the kernel.
-/

/-- The left-brace character, written via its code point. -/
def lbrace : Char := Char.ofNat 123

/-- The JS test `s.indexOf(lbrace) === 0`: the FIRST character of the
string is a left brace (no whitespace is skipped). -/
def startsWithLbrace (s : String) : Bool :=
  match s.data with
  | c :: _ => c = lbrace
  | [] => false

/-- Whether the first non-whitespace character of the string is a left
brace. This is the condition the specification text describes; compare
with startsWithLbrace, the condition the source implements. -/
def firstNonWsIsLbrace (s : String) : Bool :=
  match s.data.dropWhile Char.isWhitespace with
  | c :: _ => c = lbrace
  | [] => false

/-- The JS `s.trim()` used on each comma-separated event name. -/
def jsTrim (s : String) : String :=
  String.mk (((s.data.dropWhile Char.isWhitespace).reverse.dropWhile Char.isWhitespace).reverse)

/-- Split helper for jsSplitComma, accumulating the current piece. -/
def splitCommaAux : List Char → List Char → List String
  | [], acc => [String.mk acc.reverse]
  | c :: cs, acc =>
    if c = ',' then String.mk acc.reverse :: splitCommaAux cs []
    else splitCommaAux cs (c :: acc)

/-- The JS `s.split(",")`: always nonempty, one piece per comma. -/
def jsSplitComma (s : String) : List String := splitCommaAux s.data []

/-! ### DOM fragment model

A parsed HTML fragment is a list of root nodes. Command tags are elements
whose tag name is "htmx". Attribute lists keep document order; the DOM
guarantees attribute names are unique per element, so first-match lookup
is the attribute read.
-/

inductive Node where
  | elem (tag : String) (attrs : List (String × String)) (children : List Node)
  | text (s : String)

/-- Attribute list of a node (empty for text nodes). -/
def attrsOf : Node → List (String × String)
  | Node.elem _ a _ => a
  | Node.text _ => []

/-- The api.getAttributeValue read used throughout the source. -/
def getAttributeValue (e : Node) (name : String) : Option String :=
  lookupStr (attrsOf e) name

/-- The DOM hasAttribute test. -/
def hasAttribute (e : Node) (name : String) : Bool :=
  (getAttributeValue e name).isSome

/-- Whether a node is an htmx command element. -/
def isHtmxNode : Node → Bool
  | Node.elem t _ _ => t = "htmx"
  | Node.text _ => false

/-- Serialization of attributes for innerHTML. -/
def serializeAttrs : List (String × String) → String
  | [] => ""
  | (n, v) :: rest => " " ++ n ++ "=\"" ++ v ++ "\"" ++ serializeAttrs rest

/-- Serialization of a node list, the innerHTML string of a parent. -/
def serializeList : List Node → String
  | [] => ""
  | Node.elem t a cs :: ns =>
    "<" ++ t ++ serializeAttrs a ++ ">" ++ serializeList cs ++ "</" ++ t ++ ">" ++ serializeList ns
  | Node.text s :: ns => s ++ serializeList ns

/-- The innerHTML of an element: serialization of its children. -/
def innerHTML : Node → String
  | Node.elem _ _ cs => serializeList cs
  | Node.text _ => ""

/-- The fragment.querySelectorAll("htmx") traversal: every htmx element of
the forest in document order, a node listed before its descendants. -/
def collectHtmx : List Node → List Node
  | [] => []
  | Node.elem t a cs :: ns =>
    (if t = "htmx" then [Node.elem t a cs] else []) ++ collectHtmx cs ++ collectHtmx ns
  | Node.text _ :: ns => collectHtmx ns

/-- The htmx elements strictly inside one node (its proper descendants). -/
def nestedHtmxInside : Node → List Node
  | Node.elem _ _ cs => collectHtmx cs
  | Node.text _ => []

/-- Effect of el.remove() applied to every htmx element of the fragment:
each htmx subtree is dropped, wherever it occurs. -/
def removeHtmx : List Node → List Node
  | [] => []
  | Node.elem t a cs :: ns =>
    if t = "htmx" then removeHtmx ns
    else Node.elem t a (removeHtmx cs) :: removeHtmx ns
  | Node.text s :: ns => Node.text s :: removeHtmx ns

/-! ### Effects and the external environment

Every observable action the extension performs is recorded as one Effect,
in the order the source performs it. The external collaborators are an
explicit environment of pure functions: htmx.find resolves a selector
against the live document (element identities are opaque Nat ids),
JSON.parse either yields a value or throws (none), and event listeners
may cancel the cancelable events.
-/

/-- Dispatch target of a client event: document.body, an element of the
live document, or the context element of the request. -/
inductive EventTarget where
  | body
  | docElt (id : Nat)
  | context

/-- Value passed in the options object of the htmx.ajax call: a JSON value
from the location attribute, or the document.body reference. -/
inductive OptVal where
  | jval (j : Json)
  | domBody

/-- Errors thrown inside one command: the validation failures of
validateCommandElement, and a JSON.parse failure on the location value. -/
inductive ValidationError where
  | unknownAttribute (name : String)
  | swapWithoutTarget

/-- A thrown JS error, modelled structurally (the message text is opaque
to every claim). -/
inductive JsError where
  | noCommandAttribute
  | validation (errors : List ValidationError)
  | jsonParse (input : String)

/-- One observable action of the extension, in trace order. -/
inductive Effect where
  | beforeServerCommand (cmd : Node)
  | afterServerCommand (cmd : Node)
  | serverCommandError (err : JsError) (cmd : Node)
  | targetError (sel : String)
  | warnNested
  | warnTriggerTargetNotFound (sel : String)
  | triggerDispatch (tgt : EventTarget) (name : String) (detail : Option Json)
  | beforeSwapEvt (targetId : Nat) (content : String)
  | swapOp (targetId : Nat) (content : String) (spec : String) (sel : Option String)
      (afterSwapTrigger : Option String) (afterSettleTrigger : Option String)
  | locationAssign (url : String)
  | locationReload
  | historySave
  | historyPush (url : String)
  | historyReplace (url : String)
  | ajaxGet (path : Option Json) (opts : List (String × OptVal))

/-- The external collaborators of the extension, as pure functions. -/
structure Env where
  find : String → Option Nat
  jsonParse : String → Option Json
  cancelBeforeServerCommand : Node → Bool
  cancelBeforeSwap : Nat → Bool
  shouldSwapAfterEvent : Nat → Bool
  getSwapSpecification : String → String

/-! ### Trigger Dispatcher (handleTriggerAttribute) -/

/-- Body of the for..in loop of handleTriggerAttribute for one parsed
entry. The source condition is
typeof detail === "object" AND detail !== null AND detail.target truthy;
only then is the target resolved, the warning possibly logged, and the
target key deleted from the detail before dispatch. -/
def processTriggerEntry (env : Env) (entry : String × Json) : List Effect :=
  match objGet entry.2 "target" with
  | some tv =>
    if jsTypeofObject entry.2 && !(isNullJson entry.2) && jsTruthy tv then
      match env.find (jsToString tv) with
      | some tid =>
        [Effect.triggerDispatch (EventTarget.docElt tid) entry.1 (some (objRemove entry.2 "target"))]
      | none =>
        [Effect.warnTriggerTargetNotFound (jsToString tv),
         Effect.triggerDispatch EventTarget.body entry.1 (some (objRemove entry.2 "target"))]
    else
      [Effect.triggerDispatch EventTarget.body entry.1 (some entry.2)]
  | none =>
    [Effect.triggerDispatch EventTarget.body entry.1 (some entry.2)]

/-- The handleTriggerAttribute function: parse the value as JSON and
dispatch each entry; on a parse failure fall back to a comma-separated
list of bare event names dispatched on document.body with no detail. -/
def handleTriggerAttribute (env : Env) (value : String) : List Effect :=
  match env.jsonParse value with
  | some triggers => (forInEntries triggers).flatMap (processTriggerEntry env)
  | none =>
    (jsSplitComma value).map
      (fun n => Effect.triggerDispatch EventTarget.body (jsTrim n) none)

/-! ### Navigation Handler (handleLocationAttribute) -/

/-- The first options argument built by the source,
mergeObjects(source: document.body, redirectSwapSpec). -/
def baseAjaxOptions : List (String × OptVal) := [("source", OptVal.domBody)]

/-- One property assignment obj[k] = v of the merge loop. -/
def setKey (l : List (String × OptVal)) (k : String) (v : OptVal) : List (String × OptVal) :=
  if l.any (fun p => p.1 = k) then
    l.map (fun p => if p.1 = k then (k, v) else p)
  else l ++ [(k, v)]

/-- The api.mergeObjects operation: copy every property of the second
object onto the first. -/
def mergeObjects (obj1 obj2 : List (String × OptVal)) : List (String × OptVal) :=
  obj2.foldl (fun acc p => setKey acc p.1 p.2) obj1

/-- The handleLocationAttribute function. The source tests
redirectPath.indexOf(lbrace) === 0, i.e. the FIRST character; on that
branch it parses the value as JSON (a parse failure throws out of the
function before the history save), extracts and removes the path key and
merges the remaining keys into the htmx.ajax options. Otherwise the whole
value is the literal path. The trailing pushUrlIntoHistory of the ajax
promise is part of the ajaxGet effect (it always pushes the same path). -/
def handleLocationAttribute (env : Env) (redirectPath : String) :
    List Effect × Option JsError :=
  if startsWithLbrace redirectPath then
    match env.jsonParse redirectPath with
    | none => ([], some (JsError.jsonParse redirectPath))
    | some spec =>
      ([Effect.historySave,
        Effect.ajaxGet (objGet spec "path")
          (mergeObjects baseAjaxOptions
            ((objEntries (objRemove spec "path")).map (fun p => (p.1, OptVal.jval p.2))))],
       none)
  else
    ([Effect.historySave,
      Effect.ajaxGet (some (Json.str redirectPath)) (mergeObjects baseAjaxOptions [])],
     none)

/-- Modelled from the spec: the Navigation Handler as section 4.5 words it,
branching on the first NON-WHITESPACE character being a left brace. This
definition follows the specification text and exists only to be compared
with handleLocationAttribute, the definition taken from the source. -/
def handleLocationAttributeSpecModel (env : Env) (redirectPath : String) :
    List Effect × Option JsError :=
  if firstNonWsIsLbrace redirectPath then
    match env.jsonParse redirectPath with
    | none => ([], some (JsError.jsonParse redirectPath))
    | some spec =>
      ([Effect.historySave,
        Effect.ajaxGet (objGet spec "path")
          (mergeObjects baseAjaxOptions
            ((objEntries (objRemove spec "path")).map (fun p => (p.1, OptVal.jval p.2))))],
       none)
  else
    ([Effect.historySave,
      Effect.ajaxGet (some (Json.str redirectPath)) (mergeObjects baseAjaxOptions [])],
     none)

/-! ### Command Validator (validateCommandElement) -/

/-- The VALID_COMMAND_ATTRIBUTES set of the source. -/
def VALID_COMMAND_ATTRIBUTES : List String :=
  ["target", "swap", "select", "redirect", "refresh", "location",
   "push-url", "replace-url", "trigger", "trigger-after-swap", "trigger-after-settle"]

/-- Membership test in the valid attribute set. -/
def isValidCommandAttribute (n : String) : Bool :=
  VALID_COMMAND_ATTRIBUTES.any (fun v => v = n)

/-- The validateCommandElement function: throw (some error) when the tag
has no recognized command attribute at all; otherwise aggregate one
violation per unknown attribute plus one violation when swap or select is
present without target, and throw the aggregate when nonempty. -/
def validateCommandElement (e : Node) : Option JsError :=
  let names := (attrsOf e).map Prod.fst
  if !(names.any isValidCommandAttribute) then
    some JsError.noCommandAttribute
  else
    let unknown := names.filterMap
      (fun n => if isValidCommandAttribute n then none
                else some (ValidationError.unknownAttribute n))
    let combos :=
      if (hasAttribute e "swap" || hasAttribute e "select") && !(hasAttribute e "target") then
        [ValidationError.swapWithoutTarget]
      else []
    match unknown ++ combos with
    | [] => none
    | errs => some (JsError.validation errs)

/-! ### Command Executor (processCommandFromElement)

The body of processCommandFromElement is split into its source steps so
that theorems can reason per step. The assembled body reproduces the
source control flow exactly: the cancelable before event, validation,
swap-job gathering (step 1), the immediate directives in order
trigger, location, redirect, refresh, push-url, replace-url (step 2),
the swap jobs (step 3), the after event, with the early returns of
redirect and refresh, and the surrounding try/catch.
-/

/-- Step 1 of the executor: when the target attribute value is truthy
(present and nonempty), resolve it; a resolved selector yields one swap
job from the innerHTML of the tag, an unresolved one emits the
htmx:targetError event and yields no job. -/
def gatherSwapStep (env : Env) (cmd : Node) : List Effect × List (Nat × String) :=
  match getAttributeValue cmd "target" with
  | some t =>
    if t = "" then ([], [])
    else
      match env.find t with
      | some tid => ([], [(tid, innerHTML cmd)])
      | none => ([Effect.targetError t], [])
  | none => ([], [])

/-- The trigger directive of step 2. -/
def triggerStep (env : Env) (cmd : Node) : List Effect :=
  match getAttributeValue cmd "trigger" with
  | some v => handleTriggerAttribute env v
  | none => []

/-- The location directive of step 2 (its JSON parse may throw). -/
def locationStep (env : Env) (cmd : Node) : List Effect × Option JsError :=
  match getAttributeValue cmd "location" with
  | some v => handleLocationAttribute env v
  | none => ([], none)

/-- The refresh test of step 2: attribute present and not literally
the string false. -/
def refreshRequested (cmd : Node) : Bool :=
  match getAttributeValue cmd "refresh" with
  | some v => if v = "false" then false else true
  | none => false

/-- The push-url and replace-url directives of step 2, each preceded by a
history save. -/
def historyStep (cmd : Node) : List Effect :=
  (match getAttributeValue cmd "push-url" with
   | some u => [Effect.historySave, Effect.historyPush u]
   | none => []) ++
  (match getAttributeValue cmd "replace-url" with
   | some u => [Effect.historySave, Effect.historyReplace u]
   | none => [])

/-- The swap style of the command: the swap attribute when truthy,
otherwise the outerHTML default (the source uses JS disjunction, so an
empty attribute value also falls back to the default). -/
def commandSwapStyle (cmd : Node) : String :=
  match getAttributeValue cmd "swap" with
  | some s => if s = "" then "outerHTML" else s
  | none => "outerHTML"

/-- Step 3 of the executor: for each gathered job dispatch the cancelable
htmx:beforeSwap event; when not canceled and shouldSwap is still set,
invoke the external swap with the select attribute and the two optional
trigger callbacks (registered exactly when the corresponding attribute is
present). -/
def swapStep (env : Env) (cmd : Node) (jobs : List (Nat × String)) : List Effect :=
  if jobs.isEmpty then []
  else
    jobs.flatMap (fun job =>
      Effect.beforeSwapEvt job.1 job.2 ::
      (if env.cancelBeforeSwap job.1 then []
       else if env.shouldSwapAfterEvent job.1 then
         [Effect.swapOp job.1 job.2 (env.getSwapSpecification (commandSwapStyle cmd))
           (getAttributeValue cmd "select")
           (getAttributeValue cmd "trigger-after-swap")
           (getAttributeValue cmd "trigger-after-settle")]
       else []))

/-- The try block of processCommandFromElement: the effect trace up to a
possible thrown error. -/
def processCommandBody (env : Env) (cmd : Node) : List Effect × Option JsError :=
  if env.cancelBeforeServerCommand cmd then
    ([Effect.beforeServerCommand cmd], none)
  else
    match validateCommandElement cmd with
    | some err => ([Effect.beforeServerCommand cmd], some err)
    | none =>
      let gather := gatherSwapStep env cmd
      let trigFx := triggerStep env cmd
      let loc := locationStep env cmd
      let pre := Effect.beforeServerCommand cmd :: (gather.1 ++ trigFx ++ loc.1)
      match loc.2 with
      | some err => (pre, some err)
      | none =>
        match getAttributeValue cmd "redirect" with
        | some url => (pre ++ [Effect.locationAssign url], none)
        | none =>
          if refreshRequested cmd then (pre ++ [Effect.locationReload], none)
          else
            (pre ++ historyStep cmd ++ swapStep env cmd gather.2 ++
              [Effect.afterServerCommand cmd], none)

/-- The processCommandFromElement function: its catch block converts any
thrown error into one htmx:serverCommandError event on document.body
carrying the original error and the offending command element; no error
escapes the command boundary. -/
def processCommandFromElement (env : Env) (cmd : Node) : List Effect :=
  match processCommandBody env cmd with
  | (fx, none) => fx
  | (fx, some err) => fx ++ [Effect.serverCommandError err cmd]

/-- The await loop of the async task launched by transformResponse,
processing commands strictly in order; one command never aborts the rest. -/
def runCommandLoop (env : Env) (cmds : List Node) : List Effect :=
  match cmds with
  | [] => []
  | c :: rest => processCommandFromElement env c ++ runCommandLoop env rest

/-! ### Response Preprocessor (transformResponse)

The source launches the command loop as an immediately invoked async
function that is not awaited. Per ECMAScript semantics an async function
body runs synchronously up to its first await; processCommandFromElement
contains no await, so the FIRST top-level command is processed entirely
synchronously inside the call, before transformResponse serializes and
returns the sanitized fragment, while each later command runs in a
subsequent microtask, after the synchronous return. The trace is split
accordingly into preReturnEffects and postReturnEffects.
-/

/-- Result of one transformResponse call. -/
structure TransformResult where
  output : List Node
  preReturnEffects : List Effect
  postReturnEffects : List Effect
  executedCommands : List Node

/-- The transformResponse entry point: early return when the fragment has
no htmx tag; otherwise compute the top-level command subset (direct
children of the fragment root, in document order), warn once when nested
htmx tags exist, hand the top-level list to the command loop, remove
every htmx tag and return the sanitized fragment synchronously. -/
def transformResponse (env : Env) (frag : List Node) : TransformResult :=
  if (collectHtmx frag).isEmpty then
    ⟨frag, [], [], []⟩
  else
    let all := collectHtmx frag
    let top := frag.filter isHtmxNode
    let warnFx := if top.length < all.length then [Effect.warnNested] else []
    ⟨removeHtmx frag,
     warnFx ++ runCommandLoop env (top.take 1),
     runCommandLoop env (top.drop 1),
     top⟩

/-! ### Helper lemmas: what each stage can emit -/

theorem countP_processTriggerEntry_zero (env : Env) (entry : String × Json) (q : Effect → Bool)
    (h1 : ∀ t n d, q (Effect.triggerDispatch t n d) = false)
    (h2 : ∀ s, q (Effect.warnTriggerTargetNotFound s) = false) :
    (processTriggerEntry env entry).countP q = 0 := by
  unfold processTriggerEntry
  split
  · split
    · split <;> simp [List.countP_cons, h1, h2]
    · simp [List.countP_cons, h1]
  · simp [List.countP_cons, h1]

theorem countP_handleTriggerAttribute_zero (env : Env) (v : String) (q : Effect → Bool)
    (h1 : ∀ t n d, q (Effect.triggerDispatch t n d) = false)
    (h2 : ∀ s, q (Effect.warnTriggerTargetNotFound s) = false) :
    (handleTriggerAttribute env v).countP q = 0 := by
  unfold handleTriggerAttribute
  split
  · rw [List.countP_eq_zero]
    intro e he
    rw [List.mem_flatMap] at he
    obtain ⟨entry, _, he⟩ := he
    have hz := countP_processTriggerEntry_zero env entry q h1 h2
    rw [List.countP_eq_zero] at hz
    exact hz e he
  · rw [List.countP_eq_zero]
    intro e he
    rw [List.mem_map] at he
    obtain ⟨n, _, rfl⟩ := he
    simp [h1]

theorem countP_triggerStep_zero (env : Env) (cmd : Node) (q : Effect → Bool)
    (h1 : ∀ t n d, q (Effect.triggerDispatch t n d) = false)
    (h2 : ∀ s, q (Effect.warnTriggerTargetNotFound s) = false) :
    (triggerStep env cmd).countP q = 0 := by
  unfold triggerStep
  split
  · exact countP_handleTriggerAttribute_zero env _ q h1 h2
  · rfl

theorem countP_gatherSwapStep_zero (env : Env) (cmd : Node) (q : Effect → Bool)
    (h : ∀ s, q (Effect.targetError s) = false) :
    ((gatherSwapStep env cmd).1).countP q = 0 := by
  unfold gatherSwapStep
  split
  · split
    · rfl
    · split <;> simp [List.countP_cons, h]
  · rfl

theorem countP_handleLocationAttribute_fst_zero (env : Env) (v : String) (q : Effect → Bool)
    (h1 : q Effect.historySave = false)
    (h2 : ∀ p o, q (Effect.ajaxGet p o) = false) :
    ((handleLocationAttribute env v).1).countP q = 0 := by
  unfold handleLocationAttribute
  split
  · split <;> simp [List.countP_cons, h1, h2]
  · simp [List.countP_cons, h1, h2]

theorem countP_locationStep_fst_zero (env : Env) (cmd : Node) (q : Effect → Bool)
    (h1 : q Effect.historySave = false)
    (h2 : ∀ p o, q (Effect.ajaxGet p o) = false) :
    ((locationStep env cmd).1).countP q = 0 := by
  unfold locationStep
  split
  · exact countP_handleLocationAttribute_fst_zero env _ q h1 h2
  · rfl

theorem countP_historyStep_zero (cmd : Node) (q : Effect → Bool)
    (h1 : q Effect.historySave = false)
    (h2 : ∀ u, q (Effect.historyPush u) = false)
    (h3 : ∀ u, q (Effect.historyReplace u) = false) :
    (historyStep cmd).countP q = 0 := by
  unfold historyStep
  rw [List.countP_append]
  split <;> split <;> simp [List.countP_cons, h1, h2, h3]

theorem countP_swapStep_zero (env : Env) (cmd : Node) (jobs : List (Nat × String))
    (q : Effect → Bool)
    (h1 : ∀ a b, q (Effect.beforeSwapEvt a b) = false)
    (h2 : ∀ a b c d e f, q (Effect.swapOp a b c d e f) = false) :
    (swapStep env cmd jobs).countP q = 0 := by
  unfold swapStep
  split
  · rfl
  · rw [List.countP_eq_zero]
    intro e he
    rw [List.mem_flatMap] at he
    obtain ⟨job, _, he⟩ := he
    rcases List.mem_cons.mp he with rfl | he2
    · simp [h1]
    · split at he2
      · simp at he2
      · split at he2 <;> simp at he2 <;> rw [he2] <;> simp [h2]

/-! ### Helper lemmas: the executor trace in each control-flow branch -/

theorem processCommand_eq_of_cancel (env : Env) (cmd : Node)
    (hc : env.cancelBeforeServerCommand cmd = true) :
    processCommandFromElement env cmd = [Effect.beforeServerCommand cmd] := by
  simp [processCommandFromElement, processCommandBody, hc]

theorem processCommand_eq_of_invalid (env : Env) (cmd : Node) (err : JsError)
    (hc : env.cancelBeforeServerCommand cmd = false)
    (hv : validateCommandElement cmd = some err) :
    processCommandFromElement env cmd =
      [Effect.beforeServerCommand cmd, Effect.serverCommandError err cmd] := by
  simp [processCommandFromElement, processCommandBody, hc, hv]

theorem processCommand_eq_of_locerr (env : Env) (cmd : Node) (err : JsError)
    (hc : env.cancelBeforeServerCommand cmd = false)
    (hv : validateCommandElement cmd = none)
    (hl : (locationStep env cmd).2 = some err) :
    processCommandFromElement env cmd =
      Effect.beforeServerCommand cmd ::
        ((gatherSwapStep env cmd).1 ++ triggerStep env cmd ++ (locationStep env cmd).1 ++
          [Effect.serverCommandError err cmd]) := by
  simp [processCommandFromElement, processCommandBody, hc, hv, hl]

theorem processCommand_eq_of_redirect (env : Env) (cmd : Node) (url : String)
    (hc : env.cancelBeforeServerCommand cmd = false)
    (hv : validateCommandElement cmd = none)
    (hl : (locationStep env cmd).2 = none)
    (hr : getAttributeValue cmd "redirect" = some url) :
    processCommandFromElement env cmd =
      Effect.beforeServerCommand cmd ::
        ((gatherSwapStep env cmd).1 ++ triggerStep env cmd ++ (locationStep env cmd).1 ++
          [Effect.locationAssign url]) := by
  simp [processCommandFromElement, processCommandBody, hc, hv, hl, hr]

theorem processCommand_eq_of_refresh (env : Env) (cmd : Node)
    (hc : env.cancelBeforeServerCommand cmd = false)
    (hv : validateCommandElement cmd = none)
    (hl : (locationStep env cmd).2 = none)
    (hr : getAttributeValue cmd "redirect" = none)
    (hrf : refreshRequested cmd = true) :
    processCommandFromElement env cmd =
      Effect.beforeServerCommand cmd ::
        ((gatherSwapStep env cmd).1 ++ triggerStep env cmd ++ (locationStep env cmd).1 ++
          [Effect.locationReload]) := by
  simp [processCommandFromElement, processCommandBody, hc, hv, hl, hr, hrf]

theorem processCommand_eq_normal (env : Env) (cmd : Node)
    (hc : env.cancelBeforeServerCommand cmd = false)
    (hv : validateCommandElement cmd = none)
    (hl : (locationStep env cmd).2 = none)
    (hr : getAttributeValue cmd "redirect" = none)
    (hrf : refreshRequested cmd = false) :
    processCommandFromElement env cmd =
      Effect.beforeServerCommand cmd ::
        ((gatherSwapStep env cmd).1 ++ triggerStep env cmd ++ (locationStep env cmd).1 ++
          historyStep cmd ++ swapStep env cmd (gatherSwapStep env cmd).2 ++
          [Effect.afterServerCommand cmd]) := by
  simp [processCommandFromElement, processCommandBody, hc, hv, hl, hr, hrf]

/-! ### Helper lemmas: the fragment tree -/

theorem collectHtmx_removeHtmx (l : List Node) : collectHtmx (removeHtmx l) = [] := by
  induction l using removeHtmx.induct <;> simp_all [removeHtmx, collectHtmx]

theorem removeHtmx_of_collect_nil (l : List Node) (h : collectHtmx l = []) :
    removeHtmx l = l := by
  induction l using removeHtmx.induct <;> simp_all [removeHtmx, collectHtmx]

theorem filter_isHtmx_of_collect_nil (l : List Node) (h : collectHtmx l = []) :
    l.filter isHtmxNode = [] := by
  induction l using removeHtmx.induct <;> simp_all [collectHtmx, isHtmxNode]

theorem collectHtmx_length (l : List Node) :
    (collectHtmx l).length =
      (l.filter isHtmxNode).length + (l.map (fun n => (nestedHtmxInside n).length)).sum := by
  induction l using removeHtmx.induct <;>
    simp_all [collectHtmx, isHtmxNode, nestedHtmxInside] <;> omega

theorem natSum_pos_iff (ns : List Nat) : 0 < ns.sum ↔ ∃ x ∈ ns, 0 < x := by
  induction ns with
  | nil => simp
  | cons a l ih =>
    simp only [List.sum_cons, List.mem_cons]
    constructor
    · intro h
      by_cases ha : 0 < a
      · exact ⟨a, Or.inl rfl, ha⟩
      · have hs : 0 < l.sum := by omega
        obtain ⟨x, hx, hpos⟩ := ih.mp hs
        exact ⟨x, Or.inr hx, hpos⟩
    · intro h
      rcases h with ⟨x, hx, hpos⟩
      rcases hx with rfl | hx
      · omega
      · have := ih.mpr ⟨x, hx, hpos⟩
        omega

theorem nested_exists_iff_length_lt (l : List Node) :
    (l.filter isHtmxNode).length < (collectHtmx l).length ↔
      ∃ n ∈ l, nestedHtmxInside n ≠ [] := by
  rw [collectHtmx_length l]
  constructor
  · intro h
    have hpos : 0 < (l.map (fun n => (nestedHtmxInside n).length)).sum := by omega
    obtain ⟨x, hx, hxpos⟩ := (natSum_pos_iff _).mp hpos
    rw [List.mem_map] at hx
    obtain ⟨n, hn, rfl⟩ := hx
    refine ⟨n, hn, ?_⟩
    intro hnil
    rw [hnil] at hxpos
    simp at hxpos
  · intro ⟨n, hn, hne⟩
    have hpos : 0 < (l.map (fun n => (nestedHtmxInside n).length)).sum := by
      refine (natSum_pos_iff _).mpr ⟨(nestedHtmxInside n).length, ?_, ?_⟩
      · exact List.mem_map.mpr ⟨n, hn, rfl⟩
      · exact List.length_pos.mpr hne
    omega

/-! ### Helper lemmas: the command loop -/

theorem runCommandLoop_append (env : Env) (l1 l2 : List Node) :
    runCommandLoop env (l1 ++ l2) = runCommandLoop env l1 ++ runCommandLoop env l2 := by
  induction l1 with
  | nil => rfl
  | cons c rest ih => simp [runCommandLoop, ih]

theorem runCommandLoop_take_drop (env : Env) (cmds : List Node) :
    runCommandLoop env (cmds.take 1) ++ runCommandLoop env (cmds.drop 1) =
      runCommandLoop env cmds := by
  rw [← runCommandLoop_append, List.take_append_drop]

theorem countP_processCommand_zero (env : Env) (cmd : Node) (q : Effect → Bool)
    (hb : ∀ c, q (Effect.beforeServerCommand c) = false)
    (ha : ∀ c, q (Effect.afterServerCommand c) = false)
    (he : ∀ err c, q (Effect.serverCommandError err c) = false)
    (hte : ∀ s, q (Effect.targetError s) = false)
    (htr : ∀ t n d, q (Effect.triggerDispatch t n d) = false)
    (hw : ∀ s, q (Effect.warnTriggerTargetNotFound s) = false)
    (hsv : q Effect.historySave = false)
    (haj : ∀ p o, q (Effect.ajaxGet p o) = false)
    (hla : ∀ u, q (Effect.locationAssign u) = false)
    (hlr : q Effect.locationReload = false)
    (hpu : ∀ u, q (Effect.historyPush u) = false)
    (hru : ∀ u, q (Effect.historyReplace u) = false)
    (hbs : ∀ a b, q (Effect.beforeSwapEvt a b) = false)
    (hso : ∀ a b c d e f, q (Effect.swapOp a b c d e f) = false) :
    (processCommandFromElement env cmd).countP q = 0 := by
  have hg := countP_gatherSwapStep_zero env cmd q hte
  have ht := countP_triggerStep_zero env cmd q htr hw
  have hl := countP_locationStep_fst_zero env cmd q hsv haj
  have hh := countP_historyStep_zero cmd q hsv hpu hru
  have hs := countP_swapStep_zero env cmd (gatherSwapStep env cmd).2 q hbs hso
  by_cases hc : env.cancelBeforeServerCommand cmd = true
  · rw [processCommand_eq_of_cancel env cmd hc]
    simp [List.countP_cons, hb]
  · have hc2 : env.cancelBeforeServerCommand cmd = false := by
      revert hc; cases env.cancelBeforeServerCommand cmd <;> simp
    cases hv : validateCommandElement cmd with
    | some err =>
      rw [processCommand_eq_of_invalid env cmd err hc2 hv]
      simp [List.countP_cons, hb, he]
    | none =>
      cases hloc : (locationStep env cmd).2 with
      | some err =>
        rw [processCommand_eq_of_locerr env cmd err hc2 hv hloc]
        simp [List.countP_cons, List.countP_append, hb, he, hg, ht, hl]
      | none =>
        cases hr : getAttributeValue cmd "redirect" with
        | some url =>
          rw [processCommand_eq_of_redirect env cmd url hc2 hv hloc hr]
          simp [List.countP_cons, List.countP_append, hb, hla, hg, ht, hl]
        | none =>
          by_cases hrf : refreshRequested cmd = true
          · rw [processCommand_eq_of_refresh env cmd hc2 hv hloc hr hrf]
            simp [List.countP_cons, List.countP_append, hb, hlr, hg, ht, hl]
          · have hrf2 : refreshRequested cmd = false := by
              revert hrf; cases refreshRequested cmd <;> simp
            rw [processCommand_eq_normal env cmd hc2 hv hloc hr hrf2]
            simp [List.countP_cons, List.countP_append, hb, ha, hg, ht, hl, hh, hs]

theorem countP_runCommandLoop_zero (env : Env) (cmds : List Node) (q : Effect → Bool)
    (hb : ∀ c, q (Effect.beforeServerCommand c) = false)
    (ha : ∀ c, q (Effect.afterServerCommand c) = false)
    (he : ∀ err c, q (Effect.serverCommandError err c) = false)
    (hte : ∀ s, q (Effect.targetError s) = false)
    (htr : ∀ t n d, q (Effect.triggerDispatch t n d) = false)
    (hw : ∀ s, q (Effect.warnTriggerTargetNotFound s) = false)
    (hsv : q Effect.historySave = false)
    (haj : ∀ p o, q (Effect.ajaxGet p o) = false)
    (hla : ∀ u, q (Effect.locationAssign u) = false)
    (hlr : q Effect.locationReload = false)
    (hpu : ∀ u, q (Effect.historyPush u) = false)
    (hru : ∀ u, q (Effect.historyReplace u) = false)
    (hbs : ∀ a b, q (Effect.beforeSwapEvt a b) = false)
    (hso : ∀ a b c d e f, q (Effect.swapOp a b c d e f) = false) :
    (runCommandLoop env cmds).countP q = 0 := by
  induction cmds with
  | nil => rfl
  | cons c rest ih =>
    rw [runCommandLoop, List.countP_append, ih,
      countP_processCommand_zero env c q hb ha he hte htr hw hsv haj hla hlr hpu hru hbs hso]

/-! ### Effect classifiers used by the claims -/

/-- Whether the effect is a trigger event dispatch. -/
def isTriggerDispatchFx : Effect → Bool
  | Effect.triggerDispatch _ _ _ => true
  | _ => false

/-- Whether the effect is an executed swap of the external swap engine. -/
def isSwapOpFx : Effect → Bool
  | Effect.swapOp _ _ _ _ _ _ => true
  | _ => false

/-- Whether the effect is an htmx:beforeSwap dispatch (a swap job being
processed). -/
def isBeforeSwapFx : Effect → Bool
  | Effect.beforeSwapEvt _ _ => true
  | _ => false

/-- Whether the effect is the browser-location assignment of redirect. -/
def isLocationAssignFx : Effect → Bool
  | Effect.locationAssign _ => true
  | _ => false

/-- Whether the effect is the page reload of refresh. -/
def isReloadFx : Effect → Bool
  | Effect.locationReload => true
  | _ => false

/-- Whether the effect is a history snapshot save. -/
def isHistorySaveFx : Effect → Bool
  | Effect.historySave => true
  | _ => false

/-- Whether the effect is a history push. -/
def isHistoryPushFx : Effect → Bool
  | Effect.historyPush _ => true
  | _ => false

/-- Whether the effect is a history replace. -/
def isHistoryReplaceFx : Effect → Bool
  | Effect.historyReplace _ => true
  | _ => false

/-- Whether the effect is the fetch-and-swap navigation of location. -/
def isAjaxFx : Effect → Bool
  | Effect.ajaxGet _ _ => true
  | _ => false

/-- Whether the effect is the htmx:afterServerCommand event. -/
def isAfterServerCommandFx : Effect → Bool
  | Effect.afterServerCommand _ => true
  | _ => false

/-- Whether the effect is the htmx:targetError event. -/
def isTargetErrorFx : Effect → Bool
  | Effect.targetError _ => true
  | _ => false

/-- Whether the effect is the nested-command console warning. -/
def isWarnNestedFx : Effect → Bool
  | Effect.warnNested => true
  | _ => false

/-- Whether the effect is the unresolved-trigger-target console warning. -/
def isWarnTriggerFx : Effect → Bool
  | Effect.warnTriggerTargetNotFound _ => true
  | _ => false

/-- Whether the effect is a command side effect in the sense of claim C2:
a swap, a trigger dispatch, a navigation, or a history mutation. -/
def isCommandSideEffectFx (e : Effect) : Bool :=
  isSwapOpFx e || isTriggerDispatchFx e || isLocationAssignFx e || isReloadFx e ||
    isAjaxFx e || isHistorySaveFx e || isHistoryPushFx e || isHistoryReplaceFx e

/-! ### Helper lemmas: validation -/

theorem mem_map_fst_of_lookup_isSome {α : Type} (l : List (String × α)) (k : String)
    (h : (lookupStr l k).isSome = true) : k ∈ l.map Prod.fst := by
  induction l with
  | nil => simp [lookupStr] at h
  | cons p ps ih =>
    rw [lookupStr] at h
    by_cases hp : p.1 = k
    · rw [List.map_cons, hp]
      exact List.mem_cons_self _ _
    · rw [if_neg hp] at h
      exact List.mem_cons_of_mem _ (ih h)

theorem validate_some_of_swap_no_target (cmd : Node)
    (hsw : hasAttribute cmd "swap" = true ∨ hasAttribute cmd "select" = true)
    (htg : hasAttribute cmd "target" = false) :
    ∃ errs, validateCommandElement cmd = some (JsError.validation errs) ∧
      ValidationError.swapWithoutTarget ∈ errs := by
  have hany : ((attrsOf cmd).map Prod.fst).any isValidCommandAttribute = true := by
    rcases hsw with h | h
    · exact List.any_eq_true.mpr
        ⟨"swap", mem_map_fst_of_lookup_isSome _ _ h, by decide⟩
    · exact List.any_eq_true.mpr
        ⟨"select", mem_map_fst_of_lookup_isSome _ _ h, by decide⟩
  have hcombo : ((hasAttribute cmd "swap" || hasAttribute cmd "select") &&
      !(hasAttribute cmd "target")) = true := by
    rcases hsw with h | h <;> rw [h] <;> rw [htg] <;> simp
  rw [validateCommandElement]
  simp only [hany, hcombo, Bool.not_true, Bool.false_eq_true, if_false, if_true]
  generalize ((attrsOf cmd).map Prod.fst).filterMap
    (fun n => if isValidCommandAttribute n then none
              else some (ValidationError.unknownAttribute n)) = unknown
  cases unknown with
  | nil => exact ⟨[ValidationError.swapWithoutTarget], rfl, List.mem_singleton.mpr rfl⟩
  | cons x xs =>
    refine ⟨x :: (xs ++ [ValidationError.swapWithoutTarget]), rfl, ?_⟩
    exact List.mem_cons_of_mem _ (List.mem_append_right _ (List.mem_singleton.mpr rfl))

/-! ### Concrete material for witnesses and counterexamples -/

/-- A default environment: no selector resolves, JSON.parse always throws,
no listener cancels anything. -/
def envDefault : Env :=
  ⟨fun _ => none, fun _ => none, fun _ => false, fun _ => false, fun _ => true, fun s => s⟩

/-- A command with swap but no target (fails validation). -/
def cmdSwapNoTarget : Node := Node.elem "htmx" [("swap", "innerHTML")] []

/-- A command with an unknown attribute only (fails validation as having
no command attribute). -/
def cmdBad : Node := Node.elem "htmx" [("bad", "1")] []

/-- A valid command dispatching one plain event. -/
def cmdOk : Node := Node.elem "htmx" [("trigger", "ping")] []

/-- A valid command pushing one history URL. -/
def cmdOk2 : Node := Node.elem "htmx" [("push-url", "/a")] []

/-! ### Claim C4 -/

/-- C4: EVERY command tag that fails validation, whatever the failure
(no command attribute, unknown attributes, or swap/select without
target), produces no side effects at all: validation throws before any
directive runs, so the whole trace of that command is the before event
followed by the serverCommandError event (or the before event alone when
a listener cancels the command). No swap job, trigger dispatch,
navigation or history effect occurs, even when the tag also carries
trigger, location, or other directive attributes. In particular, a tag
with swap or select but no target always fails validation. -/
theorem C4_invalid_command_no_partial_side_effects (env : Env) (cmd : Node) :
    (∀ err, validateCommandElement cmd = some err →
      processCommandFromElement env cmd =
        (if env.cancelBeforeServerCommand cmd then [Effect.beforeServerCommand cmd]
         else [Effect.beforeServerCommand cmd, Effect.serverCommandError err cmd])) ∧
    ((hasAttribute cmd "swap" = true ∨ hasAttribute cmd "select" = true) →
      hasAttribute cmd "target" = false →
      ∃ err, validateCommandElement cmd = some err) := by
  constructor
  · intro err hv
    by_cases hc : env.cancelBeforeServerCommand cmd = true
    · rw [if_pos hc, processCommand_eq_of_cancel env cmd hc]
    · have hc2 : env.cancelBeforeServerCommand cmd = false := by
        revert hc; cases env.cancelBeforeServerCommand cmd <;> simp
      rw [if_neg hc, processCommand_eq_of_invalid env cmd _ hc2 hv]
  · intro hsw htg
    obtain ⟨errs, hv, _⟩ := validate_some_of_swap_no_target cmd hsw htg
    exact ⟨JsError.validation errs, hv⟩

/-- A command carrying a trigger attribute together with an unknown
attribute: it fails validation with an unknown-attribute violation, so
its trigger directive must never run. -/
def cmdTriggerUnknownAttr : Node := Node.elem "htmx" [("trigger", "x"), ("badattr", "1")] []

/-- Witness for C4 at two concrete commands: a tag with trigger plus an
unknown attribute (its validation error surfaces and its trigger never
dispatches), and a tag with swap and no target (validation fails). -/
theorem C4_witness :
    validateCommandElement cmdTriggerUnknownAttr =
      some (JsError.validation [ValidationError.unknownAttribute "badattr"]) ∧
    processCommandFromElement envDefault cmdTriggerUnknownAttr =
      (if envDefault.cancelBeforeServerCommand cmdTriggerUnknownAttr then
        [Effect.beforeServerCommand cmdTriggerUnknownAttr]
       else [Effect.beforeServerCommand cmdTriggerUnknownAttr,
             Effect.serverCommandError
               (JsError.validation [ValidationError.unknownAttribute "badattr"])
               cmdTriggerUnknownAttr]) ∧
    (∃ err, validateCommandElement cmdSwapNoTarget = some err) :=
  ⟨rfl,
   (C4_invalid_command_no_partial_side_effects envDefault cmdTriggerUnknownAttr).1
     (JsError.validation [ValidationError.unknownAttribute "badattr"]) rfl,
   (C4_invalid_command_no_partial_side_effects envDefault cmdSwapNoTarget).2
     (Or.inl rfl) rfl⟩

/-! ### Claim C5 -/

/-- C5: an exception raised while processing one command of a batch is
caught at that command boundary and surfaces as one serverCommandError
event on the document root carrying the original error and the offending
element, and every other command of the batch is still processed, its
trace unchanged. -/
theorem C5_error_caught_at_command_boundary (env : Env) (pre post : List Node)
    (cmd : Node) (fx : List Effect) (err : JsError)
    (h : processCommandBody env cmd = (fx, some err)) :
    runCommandLoop env (pre ++ cmd :: post) =
      runCommandLoop env pre ++
        (fx ++ [Effect.serverCommandError err cmd]) ++ runCommandLoop env post := by
  rw [runCommandLoop_append]
  have h1 : runCommandLoop env (cmd :: post) =
      processCommandFromElement env cmd ++ runCommandLoop env post := rfl
  have h2 : processCommandFromElement env cmd = fx ++ [Effect.serverCommandError err cmd] := by
    simp [processCommandFromElement, h]
  rw [h1, h2]
  simp [List.append_assoc]

/-- Witness for C5: a batch of three commands whose middle command throws
a validation error; both neighbors still run. -/
theorem C5_witness :
    runCommandLoop envDefault ([cmdOk] ++ cmdBad :: [cmdOk2]) =
      runCommandLoop envDefault [cmdOk] ++
        ([Effect.beforeServerCommand cmdBad] ++
          [Effect.serverCommandError JsError.noCommandAttribute cmdBad]) ++
        runCommandLoop envDefault [cmdOk2] :=
  C5_error_caught_at_command_boundary envDefault [cmdOk] [cmdOk2] cmdBad
    [Effect.beforeServerCommand cmdBad] JsError.noCommandAttribute rfl

/-! ### Claim C6 -/

/-- C6: the fragment returned synchronously by transformResponse contains
no command tag at any depth, whatever the validation outcome of any
command (the trace plays no role in the output). -/
theorem C6_output_contains_no_command_tags (env : Env) (frag : List Node) :
    collectHtmx (transformResponse env frag).output = [] := by
  rw [transformResponse]
  split
  · next h => exact List.isEmpty_iff.mp h
  · exact collectHtmx_removeHtmx frag

/-! ### Claim C7 -/

/-- C7: the commands handed to the executor are exactly the top-level
htmx tags (the direct children of the fragment root, in document order);
every executed command is a direct child of the root; the nested-command
console warning fires exactly once per transformResponse call when a
nested command tag exists and never otherwise, however many nested tags
there are. -/
theorem C7_only_top_level_commands_executed (env : Env) (frag : List Node) :
    (transformResponse env frag).executedCommands = frag.filter isHtmxNode ∧
    (∀ c ∈ (transformResponse env frag).executedCommands,
       c ∈ frag ∧ isHtmxNode c = true) ∧
    ((transformResponse env frag).preReturnEffects ++
        (transformResponse env frag).postReturnEffects).countP isWarnNestedFx =
      (if (frag.filter isHtmxNode).length < (collectHtmx frag).length then 1 else 0) ∧
    ((frag.filter isHtmxNode).length < (collectHtmx frag).length ↔
      ∃ n ∈ frag, nestedHtmxInside n ≠ []) := by
  have hexec : (transformResponse env frag).executedCommands = frag.filter isHtmxNode := by
    rw [transformResponse]
    split
    · next h => rw [filter_isHtmx_of_collect_nil frag (List.isEmpty_iff.mp h)]
    · rfl
  refine ⟨hexec, ?_, ?_, nested_exists_iff_length_lt frag⟩
  · intro c hc
    rw [hexec, List.mem_filter] at hc
    exact hc
  · have hloop : ∀ cmds : List Node,
        (runCommandLoop env cmds).countP isWarnNestedFx = 0 := by
      intro cmds
      exact countP_runCommandLoop_zero env cmds isWarnNestedFx
        (fun _ => rfl) (fun _ => rfl) (fun _ _ => rfl) (fun _ => rfl)
        (fun _ _ _ => rfl) (fun _ => rfl) rfl (fun _ _ => rfl) (fun _ => rfl) rfl
        (fun _ => rfl) (fun _ => rfl) (fun _ _ => rfl) (fun _ _ _ _ _ _ => rfl)
    rw [transformResponse]
    split
    · next h =>
      have hcoll : collectHtmx frag = [] := List.isEmpty_iff.mp h
      rw [filter_isHtmx_of_collect_nil frag hcoll, hcoll]
      rfl
    · simp only [List.countP_append, hloop]
      by_cases hlt : (frag.filter isHtmxNode).length < (collectHtmx frag).length
      · rw [if_pos hlt, if_pos hlt]
        rfl
      · rw [if_neg hlt, if_neg hlt]
        rfl

/-! ### A stage-level variant of the master count lemma -/

theorem countP_processCommand_zero_stages (env : Env) (cmd : Node) (q : Effect → Bool)
    (hb : ∀ c, q (Effect.beforeServerCommand c) = false)
    (ha : ∀ c, q (Effect.afterServerCommand c) = false)
    (he : ∀ err c, q (Effect.serverCommandError err c) = false)
    (hla : ∀ u, q (Effect.locationAssign u) = false)
    (hlr : q Effect.locationReload = false)
    (hg : ((gatherSwapStep env cmd).1).countP q = 0)
    (ht : (triggerStep env cmd).countP q = 0)
    (hl : ((locationStep env cmd).1).countP q = 0)
    (hh : (historyStep cmd).countP q = 0)
    (hs : (swapStep env cmd (gatherSwapStep env cmd).2).countP q = 0) :
    (processCommandFromElement env cmd).countP q = 0 := by
  by_cases hc : env.cancelBeforeServerCommand cmd = true
  · rw [processCommand_eq_of_cancel env cmd hc]
    simp [List.countP_cons, hb]
  · have hc2 : env.cancelBeforeServerCommand cmd = false := by
      revert hc; cases env.cancelBeforeServerCommand cmd <;> simp
    cases hv : validateCommandElement cmd with
    | some err =>
      rw [processCommand_eq_of_invalid env cmd err hc2 hv]
      simp [List.countP_cons, hb, he]
    | none =>
      cases hloc : (locationStep env cmd).2 with
      | some err =>
        rw [processCommand_eq_of_locerr env cmd err hc2 hv hloc]
        simp [List.countP_cons, List.countP_append, hb, he, hg, ht, hl]
      | none =>
        cases hr : getAttributeValue cmd "redirect" with
        | some url =>
          rw [processCommand_eq_of_redirect env cmd url hc2 hv hloc hr]
          simp [List.countP_cons, List.countP_append, hb, hla, hg, ht, hl]
        | none =>
          by_cases hrf : refreshRequested cmd = true
          · rw [processCommand_eq_of_refresh env cmd hc2 hv hloc hr hrf]
            simp [List.countP_cons, List.countP_append, hb, hlr, hg, ht, hl]
          · have hrf2 : refreshRequested cmd = false := by
              revert hrf; cases refreshRequested cmd <;> simp
            rw [processCommand_eq_normal env cmd hc2 hv hloc hr hrf2]
            simp [List.countP_cons, List.countP_append, hb, ha, hg, ht, hl, hh, hs]

/-! ### Claim C9 -/

/-- C9: a command whose target attribute is present but empty (together
with swap or select, all attributes recognized) passes validation, since
validation only tests attribute presence; yet the swap-job builder tests
the truthiness of the attribute value, so no swap job is built, no
htmx:beforeSwap fires, no swap executes, and no htmx:targetError event is
emitted: the swap directive is a silent no-op. -/
theorem C9_empty_target_is_silent_noop (env : Env) (cmd : Node)
    (ht : getAttributeValue cmd "target" = some "")
    (hsw : hasAttribute cmd "swap" = true ∨ hasAttribute cmd "select" = true)
    (hall : ∀ a ∈ (attrsOf cmd).map Prod.fst, isValidCommandAttribute a = true) :
    validateCommandElement cmd = none ∧
    (processCommandFromElement env cmd).countP isSwapOpFx = 0 ∧
    (processCommandFromElement env cmd).countP isBeforeSwapFx = 0 ∧
    (processCommandFromElement env cmd).countP isTargetErrorFx = 0 := by
  have htarget : hasAttribute cmd "target" = true := by
    rw [hasAttribute, ht]; rfl
  have hgather : gatherSwapStep env cmd = ([], []) := by
    simp [gatherSwapStep, ht]
  have hvalid : validateCommandElement cmd = none := by
    have hany : ((attrsOf cmd).map Prod.fst).any isValidCommandAttribute = true := by
      refine List.any_eq_true.mpr ⟨"target", ?_, by decide⟩
      exact mem_map_fst_of_lookup_isSome _ _ htarget
    have hunknown : ((attrsOf cmd).map Prod.fst).filterMap
        (fun n => if isValidCommandAttribute n then none
                  else some (ValidationError.unknownAttribute n)) = [] := by
      refine List.filterMap_eq_nil_iff.mpr ?_
      intro a haa
      rw [hall a haa]
      rfl
    have hcombo : ((hasAttribute cmd "swap" || hasAttribute cmd "select") &&
        !(hasAttribute cmd "target")) = false := by
      rw [htarget]; simp
    rw [validateCommandElement]
    simp only [hany, hunknown, hcombo, Bool.not_true, if_false, if_true]
    rfl
  have hswapstep : ∀ q : Effect → Bool,
      (swapStep env cmd (gatherSwapStep env cmd).2).countP q = 0 := by
    intro q
    rw [hgather]
    rfl
  have hgfx : ∀ q : Effect → Bool, ((gatherSwapStep env cmd).1).countP q = 0 := by
    intro q
    rw [hgather]
    rfl
  refine ⟨hvalid, ?_, ?_, ?_⟩
  · exact countP_processCommand_zero_stages env cmd isSwapOpFx
      (fun _ => rfl) (fun _ => rfl) (fun _ _ => rfl) (fun _ => rfl) rfl
      (hgfx _)
      (countP_triggerStep_zero env cmd _ (fun _ _ _ => rfl) (fun _ => rfl))
      (countP_locationStep_fst_zero env cmd _ rfl (fun _ _ => rfl))
      (countP_historyStep_zero cmd _ rfl (fun _ => rfl) (fun _ => rfl))
      (hswapstep _)
  · exact countP_processCommand_zero_stages env cmd isBeforeSwapFx
      (fun _ => rfl) (fun _ => rfl) (fun _ _ => rfl) (fun _ => rfl) rfl
      (hgfx _)
      (countP_triggerStep_zero env cmd _ (fun _ _ _ => rfl) (fun _ => rfl))
      (countP_locationStep_fst_zero env cmd _ rfl (fun _ _ => rfl))
      (countP_historyStep_zero cmd _ rfl (fun _ => rfl) (fun _ => rfl))
      (hswapstep _)
  · exact countP_processCommand_zero_stages env cmd isTargetErrorFx
      (fun _ => rfl) (fun _ => rfl) (fun _ _ => rfl) (fun _ => rfl) rfl
      (hgfx _)
      (countP_triggerStep_zero env cmd _ (fun _ _ _ => rfl) (fun _ => rfl))
      (countP_locationStep_fst_zero env cmd _ rfl (fun _ _ => rfl))
      (countP_historyStep_zero cmd _ rfl (fun _ => rfl) (fun _ => rfl))
      (hswapstep _)

/-- A concrete command with an empty target and a swap attribute. -/
def cmdEmptyTarget : Node := Node.elem "htmx" [("target", ""), ("swap", "innerHTML")] []

/-- Witness for C9 at a concrete command. -/
theorem C9_witness :
    validateCommandElement cmdEmptyTarget = none ∧
    (processCommandFromElement envDefault cmdEmptyTarget).countP isSwapOpFx = 0 ∧
    (processCommandFromElement envDefault cmdEmptyTarget).countP isBeforeSwapFx = 0 ∧
    (processCommandFromElement envDefault cmdEmptyTarget).countP isTargetErrorFx = 0 :=
  C9_empty_target_is_silent_noop envDefault cmdEmptyTarget rfl (Or.inl rfl) (by decide)

/-! ### Claim C10 -/

/-- C10: a location attribute value that starts with a left brace but
fails JSON parsing throws before the history save, so the command issues
no history save, no navigation fetch, no history push or replace; the
error is caught at the command boundary and surfaces as the
serverCommandError event (the final effect of the command), and
afterServerCommand never fires. -/
theorem C10_location_bad_json_aborts_command (env : Env) (cmd : Node) (v : String)
    (h : getAttributeValue cmd "location" = some v)
    (hs : startsWithLbrace v = true)
    (hp : env.jsonParse v = none)
    (hc : env.cancelBeforeServerCommand cmd = false)
    (hv : validateCommandElement cmd = none) :
    (processCommandFromElement env cmd).countP isHistorySaveFx = 0 ∧
    (processCommandFromElement env cmd).countP isAjaxFx = 0 ∧
    (processCommandFromElement env cmd).countP isHistoryPushFx = 0 ∧
    (processCommandFromElement env cmd).countP isHistoryReplaceFx = 0 ∧
    (processCommandFromElement env cmd).countP isAfterServerCommandFx = 0 ∧
    (processCommandFromElement env cmd).getLast? =
      some (Effect.serverCommandError (JsError.jsonParse v) cmd) := by
  have hloc : locationStep env cmd = ([], some (JsError.jsonParse v)) := by
    simp [locationStep, h, handleLocationAttribute, hs, hp]
  have hshape := processCommand_eq_of_locerr env cmd (JsError.jsonParse v) hc hv
    (by rw [hloc])
  rw [hloc] at hshape
  simp only [List.append_nil] at hshape
  have hcounts : ∀ q : Effect → Bool,
      q (Effect.beforeServerCommand cmd) = false →
      q (Effect.serverCommandError (JsError.jsonParse v) cmd) = false →
      ((gatherSwapStep env cmd).1).countP q = 0 →
      (triggerStep env cmd).countP q = 0 →
      (processCommandFromElement env cmd).countP q = 0 := by
    intro q h1 h2 hg ht
    rw [hshape]
    simp [List.countP_cons, List.countP_append, h1, h2, hg, ht]
  refine ⟨?_, ?_, ?_, ?_, ?_, ?_⟩
  · exact hcounts _ rfl rfl
      (countP_gatherSwapStep_zero env cmd _ (fun _ => rfl))
      (countP_triggerStep_zero env cmd _ (fun _ _ _ => rfl) (fun _ => rfl))
  · exact hcounts _ rfl rfl
      (countP_gatherSwapStep_zero env cmd _ (fun _ => rfl))
      (countP_triggerStep_zero env cmd _ (fun _ _ _ => rfl) (fun _ => rfl))
  · exact hcounts _ rfl rfl
      (countP_gatherSwapStep_zero env cmd _ (fun _ => rfl))
      (countP_triggerStep_zero env cmd _ (fun _ _ _ => rfl) (fun _ => rfl))
  · exact hcounts _ rfl rfl
      (countP_gatherSwapStep_zero env cmd _ (fun _ => rfl))
      (countP_triggerStep_zero env cmd _ (fun _ _ _ => rfl) (fun _ => rfl))
  · exact hcounts _ rfl rfl
      (countP_gatherSwapStep_zero env cmd _ (fun _ => rfl))
      (countP_triggerStep_zero env cmd _ (fun _ _ _ => rfl) (fun _ => rfl))
  · rw [hshape]
    have : Effect.beforeServerCommand cmd ::
        ((gatherSwapStep env cmd).1 ++ triggerStep env cmd ++
          [Effect.serverCommandError (JsError.jsonParse v) cmd]) =
        (Effect.beforeServerCommand cmd ::
          ((gatherSwapStep env cmd).1 ++ triggerStep env cmd)) ++
          [Effect.serverCommandError (JsError.jsonParse v) cmd] := by
      simp
    rw [this, List.getLast?_concat]

/-- A location value that starts with a left brace but is not valid JSON. -/
def vBadJson : String := "\x7bnope"

/-- A concrete command carrying the malformed location value. -/
def cmdBadLocation : Node := Node.elem "htmx" [("location", vBadJson)] []

/-- Witness for C10 at a concrete command and environment. -/
theorem C10_witness :
    (processCommandFromElement envDefault cmdBadLocation).countP isHistorySaveFx = 0 ∧
    (processCommandFromElement envDefault cmdBadLocation).countP isAjaxFx = 0 ∧
    (processCommandFromElement envDefault cmdBadLocation).countP isHistoryPushFx = 0 ∧
    (processCommandFromElement envDefault cmdBadLocation).countP isHistoryReplaceFx = 0 ∧
    (processCommandFromElement envDefault cmdBadLocation).countP isAfterServerCommandFx = 0 ∧
    (processCommandFromElement envDefault cmdBadLocation).getLast? =
      some (Effect.serverCommandError (JsError.jsonParse vBadJson) cmdBadLocation) :=
  C10_location_bad_json_aborts_command envDefault cmdBadLocation vBadJson
    rfl (by decide) rfl rfl rfl

/-! ### Claim C1 -/

/-- C1 (amended): a command with a redirect attribute performs exactly one
browser-location assignment, as the last effect of the command, and
executes zero swap jobs, no reload, no history push or replace, and no
afterServerCommand event; however, trigger and location directives carried
by the same tag still execute BEFORE the redirect, because the source
handles trigger and location earlier in its fixed step order (the
hypothesis on locationStep states that the location directive, if any,
did not itself throw, since a location parse error aborts the command
before the redirect is reached). -/
theorem C1_redirect_assigns_once_and_terminates (env : Env) (cmd : Node) (url : String)
    (hr : getAttributeValue cmd "redirect" = some url)
    (hc : env.cancelBeforeServerCommand cmd = false)
    (hv : validateCommandElement cmd = none)
    (hl : (locationStep env cmd).2 = none) :
    (processCommandFromElement env cmd).countP isLocationAssignFx = 1 ∧
    (processCommandFromElement env cmd).countP isSwapOpFx = 0 ∧
    (processCommandFromElement env cmd).countP isBeforeSwapFx = 0 ∧
    (processCommandFromElement env cmd).countP isReloadFx = 0 ∧
    (processCommandFromElement env cmd).countP isHistoryPushFx = 0 ∧
    (processCommandFromElement env cmd).countP isHistoryReplaceFx = 0 ∧
    (processCommandFromElement env cmd).countP isAfterServerCommandFx = 0 ∧
    (processCommandFromElement env cmd).getLast? = some (Effect.locationAssign url) := by
  have hshape := processCommand_eq_of_redirect env cmd url hc hv hl hr
  have hcounts : ∀ q : Effect → Bool,
      q (Effect.beforeServerCommand cmd) = false →
      ((gatherSwapStep env cmd).1).countP q = 0 →
      (triggerStep env cmd).countP q = 0 →
      ((locationStep env cmd).1).countP q = 0 →
      (processCommandFromElement env cmd).countP q =
        (if q (Effect.locationAssign url) then 1 else 0) := by
    intro q h1 hg ht hlc
    rw [hshape]
    simp [List.countP_cons, List.countP_append, h1, hg, ht, hlc]
  refine ⟨?_, ?_, ?_, ?_, ?_, ?_, ?_, ?_⟩
  · rw [hcounts _ rfl
      (countP_gatherSwapStep_zero env cmd _ (fun _ => rfl))
      (countP_triggerStep_zero env cmd _ (fun _ _ _ => rfl) (fun _ => rfl))
      (countP_locationStep_fst_zero env cmd _ rfl (fun _ _ => rfl))]
    rfl
  · rw [hcounts _ rfl
      (countP_gatherSwapStep_zero env cmd _ (fun _ => rfl))
      (countP_triggerStep_zero env cmd _ (fun _ _ _ => rfl) (fun _ => rfl))
      (countP_locationStep_fst_zero env cmd _ rfl (fun _ _ => rfl))]
    rfl
  · rw [hcounts _ rfl
      (countP_gatherSwapStep_zero env cmd _ (fun _ => rfl))
      (countP_triggerStep_zero env cmd _ (fun _ _ _ => rfl) (fun _ => rfl))
      (countP_locationStep_fst_zero env cmd _ rfl (fun _ _ => rfl))]
    rfl
  · rw [hcounts _ rfl
      (countP_gatherSwapStep_zero env cmd _ (fun _ => rfl))
      (countP_triggerStep_zero env cmd _ (fun _ _ _ => rfl) (fun _ => rfl))
      (countP_locationStep_fst_zero env cmd _ rfl (fun _ _ => rfl))]
    rfl
  · rw [hcounts _ rfl
      (countP_gatherSwapStep_zero env cmd _ (fun _ => rfl))
      (countP_triggerStep_zero env cmd _ (fun _ _ _ => rfl) (fun _ => rfl))
      (countP_locationStep_fst_zero env cmd _ rfl (fun _ _ => rfl))]
    rfl
  · rw [hcounts _ rfl
      (countP_gatherSwapStep_zero env cmd _ (fun _ => rfl))
      (countP_triggerStep_zero env cmd _ (fun _ _ _ => rfl) (fun _ => rfl))
      (countP_locationStep_fst_zero env cmd _ rfl (fun _ _ => rfl))]
    rfl
  · rw [hcounts _ rfl
      (countP_gatherSwapStep_zero env cmd _ (fun _ => rfl))
      (countP_triggerStep_zero env cmd _ (fun _ _ _ => rfl) (fun _ => rfl))
      (countP_locationStep_fst_zero env cmd _ rfl (fun _ _ => rfl))]
    rfl
  · rw [hshape]
    have : Effect.beforeServerCommand cmd ::
        ((gatherSwapStep env cmd).1 ++ triggerStep env cmd ++ (locationStep env cmd).1 ++
          [Effect.locationAssign url]) =
        (Effect.beforeServerCommand cmd ::
          ((gatherSwapStep env cmd).1 ++ triggerStep env cmd ++ (locationStep env cmd).1)) ++
          [Effect.locationAssign url] := by
      simp
    rw [this, List.getLast?_concat]

/-- A command carrying both a trigger and a redirect attribute. -/
def cmdTriggerRedirect : Node :=
  Node.elem "htmx" [("trigger", "foo"), ("redirect", "/new")] []

/-- Counterexample to C1 as stated: a tag carrying both trigger and
redirect performs its trigger dispatch (one dispatch, not zero) before
the location assignment, because the source handles the trigger attribute
before the redirect attribute. -/
theorem C1_counterexample :
    hasAttribute cmdTriggerRedirect "redirect" = true ∧
    hasAttribute cmdTriggerRedirect "trigger" = true ∧
    (processCommandFromElement envDefault cmdTriggerRedirect).countP isLocationAssignFx = 1 ∧
    (processCommandFromElement envDefault cmdTriggerRedirect).countP isTriggerDispatchFx = 1 ∧
    processCommandFromElement envDefault cmdTriggerRedirect =
      [Effect.beforeServerCommand cmdTriggerRedirect,
       Effect.triggerDispatch EventTarget.body "foo" none,
       Effect.locationAssign "/new"] :=
  ⟨rfl, rfl, rfl, rfl, rfl⟩

/-- A command carrying only a redirect attribute. -/
def cmdRedirectOnly : Node := Node.elem "htmx" [("redirect", "/new")] []

/-- Witness for the amended C1 at a concrete command. -/
theorem C1_witness :
    (processCommandFromElement envDefault cmdRedirectOnly).countP isLocationAssignFx = 1 ∧
    (processCommandFromElement envDefault cmdRedirectOnly).countP isSwapOpFx = 0 ∧
    (processCommandFromElement envDefault cmdRedirectOnly).countP isBeforeSwapFx = 0 ∧
    (processCommandFromElement envDefault cmdRedirectOnly).countP isReloadFx = 0 ∧
    (processCommandFromElement envDefault cmdRedirectOnly).countP isHistoryPushFx = 0 ∧
    (processCommandFromElement envDefault cmdRedirectOnly).countP isHistoryReplaceFx = 0 ∧
    (processCommandFromElement envDefault cmdRedirectOnly).countP isAfterServerCommandFx = 0 ∧
    (processCommandFromElement envDefault cmdRedirectOnly).getLast? =
      some (Effect.locationAssign "/new") :=
  C1_redirect_assigns_once_and_terminates envDefault cmdRedirectOnly "/new" rfl rfl rfl rfl

/-! ### Claim C2 -/

/-- C2 (amended): the sanitized fragment is computed and returned
synchronously, and is independent of the environment, so command
execution never alters the returned output; commands AFTER THE FIRST run
in later microtasks, so their effects occur after the synchronous return;
but the FIRST top-level command is processed synchronously inside the
unawaited async function call (its body contains no await), so its side
effects occur BEFORE the sanitized string is returned. -/
theorem C2_first_command_synchronous_rest_deferred (env env2 : Env) (frag : List Node) :
    (transformResponse env frag).output = removeHtmx frag ∧
    (transformResponse env frag).output = (transformResponse env2 frag).output ∧
    (transformResponse env frag).preReturnEffects =
      (if (frag.filter isHtmxNode).length < (collectHtmx frag).length then
        [Effect.warnNested] else []) ++
        runCommandLoop env ((transformResponse env frag).executedCommands.take 1) ∧
    (transformResponse env frag).postReturnEffects =
      runCommandLoop env ((transformResponse env frag).executedCommands.drop 1) := by
  have hout : ∀ e : Env, (transformResponse e frag).output = removeHtmx frag := by
    intro e
    rw [transformResponse]
    split
    · next h => rw [removeHtmx_of_collect_nil frag (List.isEmpty_iff.mp h)]
    · rfl
  refine ⟨hout env, (hout env).trans (hout env2).symm, ?_, ?_⟩
  · rw [transformResponse]
    split
    · next h =>
      have hcoll : collectHtmx frag = [] := List.isEmpty_iff.mp h
      rw [filter_isHtmx_of_collect_nil frag hcoll, hcoll]
      rfl
    · rfl
  · rw [transformResponse]
    split
    · rfl
    · rfl

/-- The single-command fragment of the C2 counterexample. -/
def fragOneTrigger : List Node := [cmdOk]

/-- Counterexample to C2 as stated: a fragment with one top-level command
whose trigger dispatch (a command side effect) is among the pre-return
effects: the first command runs synchronously before the sanitized
fragment is returned, because the async function body runs synchronously
up to its first await. -/
theorem C2_counterexample :
    (transformResponse envDefault fragOneTrigger).executedCommands.length = 1 ∧
    (transformResponse envDefault fragOneTrigger).preReturnEffects.countP
      isCommandSideEffectFx = 1 ∧
    (transformResponse envDefault fragOneTrigger).postReturnEffects = [] := by
  have h : transformResponse envDefault fragOneTrigger =
      ⟨[],
       [Effect.beforeServerCommand cmdOk,
        Effect.triggerDispatch EventTarget.body "ping" none,
        Effect.afterServerCommand cmdOk],
       [], [cmdOk]⟩ := by
    rw [transformResponse]
    rw [show collectHtmx fragOneTrigger = [cmdOk] from by
      simp [fragOneTrigger, cmdOk, collectHtmx]]
    rw [show removeHtmx fragOneTrigger = [] from by
      simp [fragOneTrigger, cmdOk, removeHtmx]]
    rfl
  rw [h]
  exact ⟨rfl, rfl, rfl⟩

/-! ### Claim C3 -/

theorem processCommand_decomp_tail_no_ajax (env : Env) (cmd : Node)
    (hc : env.cancelBeforeServerCommand cmd = false)
    (hv : validateCommandElement cmd = none)
    (hl : (locationStep env cmd).2 = none) :
    ∃ tail,
      processCommandFromElement env cmd =
        Effect.beforeServerCommand cmd ::
          ((gatherSwapStep env cmd).1 ++ triggerStep env cmd ++
            (locationStep env cmd).1 ++ tail) ∧
      tail.countP isAjaxFx = 0 := by
  cases hr : getAttributeValue cmd "redirect" with
  | some url =>
    exact ⟨[Effect.locationAssign url],
      processCommand_eq_of_redirect env cmd url hc hv hl hr, rfl⟩
  | none =>
    by_cases hrf : refreshRequested cmd = true
    · exact ⟨[Effect.locationReload],
        processCommand_eq_of_refresh env cmd hc hv hl hr hrf, rfl⟩
    · have hrf2 : refreshRequested cmd = false := by
        revert hrf; cases refreshRequested cmd <;> simp
      refine ⟨historyStep cmd ++ swapStep env cmd (gatherSwapStep env cmd).2 ++
        [Effect.afterServerCommand cmd], ?_, ?_⟩
      · have := processCommand_eq_normal env cmd hc hv hl hr hrf2
        rw [this]
        simp [List.append_assoc]
      · simp only [List.countP_append, List.countP_cons, List.countP_nil,
          countP_historyStep_zero cmd isAjaxFx rfl (fun _ => rfl) (fun _ => rfl),
          countP_swapStep_zero env cmd _ isAjaxFx (fun _ _ => rfl)
            (fun _ _ _ _ _ _ => rfl)]
        rfl

/-- C3 (amended): the navigation handler branches on the FIRST character
of the location value being a left brace (the source tests
indexOf === 0, skipping no whitespace). When the first character is not a
left brace, the command issues exactly one fetch-and-swap navigation
whose path is the entire literal value with only the base options. When
the first character is a left brace and JSON parsing succeeds, the
command issues exactly one fetch whose path is the path key of the parsed
object and whose options merge the remaining keys into the base options. -/
theorem C3_location_branches_on_first_character (env : Env) (cmd : Node) (v : String)
    (h : getAttributeValue cmd "location" = some v)
    (hc : env.cancelBeforeServerCommand cmd = false)
    (hv : validateCommandElement cmd = none) :
    (startsWithLbrace v = false →
      (processCommandFromElement env cmd).countP isAjaxFx = 1 ∧
      Effect.ajaxGet (some (Json.str v)) baseAjaxOptions ∈
        processCommandFromElement env cmd) ∧
    (∀ spec, startsWithLbrace v = true → env.jsonParse v = some spec →
      (processCommandFromElement env cmd).countP isAjaxFx = 1 ∧
      Effect.ajaxGet (objGet spec "path")
          (mergeObjects baseAjaxOptions
            ((objEntries (objRemove spec "path")).map (fun p => (p.1, OptVal.jval p.2)))) ∈
        processCommandFromElement env cmd) := by
  have main : ∀ path opts,
      (locationStep env cmd).1 = [Effect.historySave, Effect.ajaxGet path opts] →
      (locationStep env cmd).2 = none →
      (processCommandFromElement env cmd).countP isAjaxFx = 1 ∧
      Effect.ajaxGet path opts ∈ processCommandFromElement env cmd := by
    intro path opts hfst hsnd
    obtain ⟨tail, hshape, htail⟩ := processCommand_decomp_tail_no_ajax env cmd hc hv hsnd
    constructor
    · rw [hshape, hfst]
      simp [List.countP_cons, List.countP_append, htail,
        countP_gatherSwapStep_zero env cmd isAjaxFx (fun _ => rfl),
        countP_triggerStep_zero env cmd isAjaxFx (fun _ _ _ => rfl) (fun _ => rfl)]
      rfl
    · rw [hshape, hfst]
      refine List.mem_cons_of_mem _ ?_
      refine List.mem_append_left _ ?_
      refine List.mem_append_right _ ?_
      exact List.mem_cons_of_mem _ (List.mem_cons_self _ _)
  constructor
  · intro hs
    refine main (some (Json.str v)) baseAjaxOptions ?_ ?_
    · simp [locationStep, h, handleLocationAttribute, hs]
      rfl
    · simp [locationStep, h, handleLocationAttribute, hs]
  · intro spec hs hp
    refine main (objGet spec "path")
      (mergeObjects baseAjaxOptions
        ((objEntries (objRemove spec "path")).map (fun p => (p.1, OptVal.jval p.2)))) ?_ ?_
    · simp [locationStep, h, handleLocationAttribute, hs, hp]
    · simp [locationStep, h, handleLocationAttribute, hs, hp]

/-- Ajax navigation paths issued in a trace, in order. -/
def ajaxPathsOf (fx : List Effect) : List (Option Json) :=
  fx.filterMap (fun e =>
    match e with
    | Effect.ajaxGet p _ => some p
    | _ => none)

/-- A location value whose first non-whitespace character is a left brace
but whose first character is a space. -/
def vLeadingWs : String := " \x7b\"path\": \"/x\"\x7d"

/-- An environment whose JSON.parse accepts vLeadingWs, as the real
JSON.parse does (leading whitespace is legal JSON). -/
def envLeadingWs : Env :=
  ⟨fun _ => none,
   fun s => if s = vLeadingWs then some (Json.obj [("path", Json.str "/x")]) else none,
   fun _ => false, fun _ => false, fun _ => true, fun s => s⟩

/-- Counterexample to C3 as stated: for a location value with leading
whitespace before the brace, the first non-whitespace character is a left
brace and JSON parsing succeeds, yet the source treats the WHOLE value as
a literal path (it tests the first character only), while the handler
worded as the spec describes extracts the path key; the two paths differ. -/
theorem C3_counterexample :
    firstNonWsIsLbrace vLeadingWs = true ∧
    startsWithLbrace vLeadingWs = false ∧
    envLeadingWs.jsonParse vLeadingWs = some (Json.obj [("path", Json.str "/x")]) ∧
    ajaxPathsOf (handleLocationAttribute envLeadingWs vLeadingWs).1 =
      [some (Json.str vLeadingWs)] ∧
    ajaxPathsOf (handleLocationAttributeSpecModel envLeadingWs vLeadingWs).1 =
      [some (Json.str "/x")] ∧
    vLeadingWs ≠ "/x" :=
  ⟨by decide, by decide, rfl, rfl, rfl, by decide⟩

/-- A command with a plain literal location path. -/
def cmdPlainLocation : Node := Node.elem "htmx" [("location", "/plain")] []

/-- Witness for the amended C3 at a concrete command whose location value
does not start with a left brace. -/
theorem C3_witness :
    (processCommandFromElement envDefault cmdPlainLocation).countP isAjaxFx = 1 ∧
    Effect.ajaxGet (some (Json.str "/plain")) baseAjaxOptions ∈
      processCommandFromElement envDefault cmdPlainLocation :=
  (C3_location_branches_on_first_character envDefault cmdPlainLocation "/plain"
    rfl rfl rfl).1 (by decide)

/-! ### Claim C8 -/

theorem lookupStr_filter_ne_self {α : Type} (l : List (String × α)) (k : String) :
    lookupStr (l.filter (fun p => !(p.1 = k : Bool))) k = none := by
  induction l with
  | nil => rfl
  | cons p ps ih =>
    by_cases hp : p.1 = k
    · simp [List.filter_cons, hp, ih]
    · simp [List.filter_cons, hp, lookupStr, ih]

theorem objGet_objRemove_self (j : Json) (k : String) :
    objGet (objRemove j k) k = none := by
  cases j <;> simp [objRemove, objGet]
  exact lookupStr_filter_ne_self _ k

/-- C8 (amended): for a trigger value parsing to an object that maps an
event name to an object detail whose target key holds a TRUTHY value
(for instance a nonempty selector string): when the selector resolves,
the event is dispatched on the resolved element with the target key
stripped from the detail; when it does not resolve, a warning is logged
and the event is dispatched on the page root, the target key stripped
either way. When the target value is falsy (for instance the empty
string), the source skips the whole branch: no warning fires and the
target key is NOT stripped (see the counterexample). -/
theorem C8_trigger_truthy_target_resolution (env : Env) (v : String)
    (name : String) (detail tv : Json)
    (hp : env.jsonParse v = some (Json.obj [(name, detail)]))
    (ht : objGet detail "target" = some tv)
    (hobj : jsTypeofObject detail = true)
    (hnn : isNullJson detail = false)
    (htr : jsTruthy tv = true) :
    (∀ tid, env.find (jsToString tv) = some tid →
      handleTriggerAttribute env v =
        [Effect.triggerDispatch (EventTarget.docElt tid) name
          (some (objRemove detail "target"))]) ∧
    (env.find (jsToString tv) = none →
      handleTriggerAttribute env v =
        [Effect.warnTriggerTargetNotFound (jsToString tv),
         Effect.triggerDispatch EventTarget.body name
          (some (objRemove detail "target"))]) ∧
    objGet (objRemove detail "target") "target" = none := by
  have hbase : handleTriggerAttribute env v = processTriggerEntry env (name, detail) := by
    rw [handleTriggerAttribute, hp]
    simp [forInEntries]
  refine ⟨?_, ?_, objGet_objRemove_self detail "target"⟩
  · intro tid hfind
    rw [hbase, processTriggerEntry]
    simp only [ht, hobj, hnn, htr, Bool.not_false, Bool.and_self, if_true, hfind]
  · intro hfind
    rw [hbase, processTriggerEntry]
    simp only [ht, hobj, hnn, htr, Bool.not_false, Bool.and_self, if_true, hfind]

/-- A trigger value whose detail has an EMPTY target selector (falsy). -/
def vEmptyTarget : String := "\x7b\"foo\": \x7b\"target\": \"\"\x7d\x7d"

/-- An environment whose JSON.parse accepts vEmptyTarget and in which no
selector resolves. -/
def envEmptyTarget : Env :=
  ⟨fun _ => none,
   fun s => if s = vEmptyTarget then
      some (Json.obj [("foo", Json.obj [("target", Json.str "")])]) else none,
   fun _ => false, fun _ => false, fun _ => true, fun s => s⟩

/-- Counterexample to C8 as stated: the detail contains a target key (the
empty string, which cannot resolve), yet NO warning fires and the event
is dispatched on the page root with the target key STILL PRESENT in the
detail, because the source tests the truthiness of the target value
before resolving, warning, or stripping. -/
theorem C8_counterexample :
    envEmptyTarget.jsonParse vEmptyTarget =
      some (Json.obj [("foo", Json.obj [("target", Json.str "")])]) ∧
    objGet (Json.obj [("target", Json.str "")]) "target" = some (Json.str "") ∧
    envEmptyTarget.find "" = none ∧
    handleTriggerAttribute envEmptyTarget vEmptyTarget =
      [Effect.triggerDispatch EventTarget.body "foo"
        (some (Json.obj [("target", Json.str "")]))] ∧
    (handleTriggerAttribute envEmptyTarget vEmptyTarget).countP isWarnTriggerFx = 0 :=
  ⟨rfl, rfl, rfl, rfl, rfl⟩

/-- A trigger value whose detail has a truthy target selector. -/
def vHashTarget : String := "\x7b\"foo\": \x7b\"target\": \"#x\", \"a\": 1\x7d\x7d"

/-- The parsed detail of vHashTarget. -/
def detailHashTarget : Json := Json.obj [("target", Json.str "#x"), ("a", Json.num 1)]

/-- An environment whose JSON.parse accepts vHashTarget and in which the
selector resolves to element 7. -/
def envHashTarget : Env :=
  ⟨fun s => if s = "#x" then some 7 else none,
   fun s => if s = vHashTarget then
      some (Json.obj [("foo", detailHashTarget)]) else none,
   fun _ => false, fun _ => false, fun _ => true, fun s => s⟩

/-- Witness for the amended C8: with a truthy resolving target the event
is dispatched on the resolved element and the dispatched detail no longer
contains the target key. -/
theorem C8_witness :
    handleTriggerAttribute envHashTarget vHashTarget =
      [Effect.triggerDispatch (EventTarget.docElt 7) "foo"
        (some (objRemove detailHashTarget "target"))] ∧
    objGet (objRemove detailHashTarget "target") "target" = none :=
  ⟨(C8_trigger_truthy_target_resolution envHashTarget vHashTarget "foo"
      detailHashTarget (Json.str "#x") rfl rfl rfl rfl (by decide)).1 7
      (by simp [jsToString, envHashTarget]),
   (C8_trigger_truthy_target_resolution envHashTarget vHashTarget "foo"
      detailHashTarget (Json.str "#x") rfl rfl rfl rfl (by decide)).2.2⟩

end ServerCommands
